import Mathlib

/-!
Shallow embedding of the security-standards version-tracking subsystem
(`src/security_standards_tracker/core/version_manager.py` and
`src/security_standards_tracker/core/tracker.py`).

Modelling conventions:
* Python floats are modelled as exact rationals (`ℚ`); every similarity the
  claims touch is a Jaccard ratio of natural numbers, so this is exact.
* Python dicts (the standards index, and the directories of version / change
  JSON files, each file addressed by its id) are modelled as association
  lists in insertion order, matching dict iteration order and the fact that
  one JSON file per id gives lookup by key.
* `datetime.now().isoformat()` timestamps are modelled as naturals; ISO
  strings of increasing wall-clock times compare like naturals.
* `uuid` generation and the clock are nondeterministic inputs, so they are
  passed to the operations as explicit parameters.
* Regex `[^\w\s]` and `str.split()` are modelled for ASCII text: keep
  alphanumeric characters, underscore and whitespace, then split on
  whitespace runs discarding empties.
-/

/-- Keep a character iff Python `re.sub(r"[^\w\s]", "", s)` keeps it
(ASCII reading of `\w` and `\s`). -/
def keepWordOrSpace (c : Char) : Bool :=
  c.isAlphanum || c = '_' || c.isWhitespace

/-- Split a character list on whitespace runs, discarding empty words
(Python `str.split()` with no argument); `cur` holds the current word
reversed. Structural recursion so that the kernel can evaluate it. -/
def wordsAux : List Char → List Char → List String
  | [], cur => if cur.isEmpty then [] else [String.mk cur.reverse]
  | c :: cs, cur =>
    if c.isWhitespace then
      if cur.isEmpty then wordsAux cs []
      else String.mk cur.reverse :: wordsAux cs []
    else wordsAux cs (c :: cur)

/-- Normalized token list of a text: lowercase, strip punctuation, split on
whitespace (Python `re.sub(r"[^\w\s]", "", s.lower()).split()`). -/
def tokenList (s : String) : List String :=
  wordsAux ((s.toList.map Char.toLower).filter keepWordOrSpace) []

/-- Normalized token set (Python wraps the token list in `set(...)`). -/
def tokenSet (s : String) : Finset String :=
  (tokenList s).toFinset

/-- Jaccard similarity of two token sets, exactly as both
`_calculate_name_similarity` and `_simple_text_similarity` compute it:
0 if either set is empty, else `|A ∩ B| / |A ∪ B|` guarded by `union > 0`. -/
def jaccardSets (A B : Finset String) : ℚ :=
  if A = ∅ ∨ B = ∅ then 0
  else if 0 < (A ∪ B).card then ((A ∩ B).card : ℚ) / ((A ∪ B).card : ℚ)
  else 0

/-- `StandardsVersionManager._calculate_name_similarity`. -/
def calculate_name_similarity (name1 name2 : String) : ℚ :=
  jaccardSets (tokenSet name1) (tokenSet name2)

/-- `StandardsVersionManager._simple_text_similarity` (the fallback used when
no embedding model is configured or the embedding call raises). -/
def simple_text_similarity (text1 text2 : String) : ℚ :=
  jaccardSets (tokenSet text1) (tokenSet text2)

/-- `StandardsVersionManager._calculate_content_similarity`. The embedding
path (external black-box model plus cosine) is abstracted by its outcome:
`none` models `embed_model is None` or a raised exception from the embedding
call, either of which falls back to `_simple_text_similarity`; `some s`
models a successfully computed cosine similarity `s`. -/
def calculate_content_similarity (embedPath : Option ℚ)
    (content1 content2 : String) : ℚ :=
  match embedPath with
  | some s => s
  | none => simple_text_similarity content1 content2

/-! ## Data model

One record type per JSON document kind produced by the version manager
(`version_data`, `change_data`, the per-standard entries of
`standards_index.json`), and a `Store` holding the whole persisted state. -/

/-- A version record, one `<version_id>.json` file under `versions_path`. -/
structure VersionData where
  version_id : String
  standard_id : String
  standard_name : String
  version_date : Nat
  summary : String
  content : String
  source_url : Option String
deriving DecidableEq, Repr

/-- One item of a changes summary produced by `_generate_changes_summary`. -/
structure ChangeItem where
  type : String
  description : String
  content : String
deriving DecidableEq, Repr

/-- A change record, one `<change_id>.json` file under `changes_path`. -/
structure ChangeData where
  change_id : String
  standard_id : String
  previous_version_id : String
  new_version_id : String
  change_date : Nat
  summary : String
  changes : List ChangeItem
deriving DecidableEq, Repr

/-- One entry of `standards_index.json`, keyed by standard id. -/
structure StandardInfo where
  name : String
  created_date : Nat
  versions : List String
  latest_version : Option String
deriving DecidableEq, Repr

/-- The persisted state the version manager reads and writes: the standards
index plus the two directories of id-addressed JSON files, each modelled as
an association list in insertion order (Python dict / directory of files). -/
structure Store where
  standards : List (String × StandardInfo)
  versionFiles : List (String × VersionData)
  changeFiles : List (String × ChangeData)
deriving DecidableEq, Repr

/-- Lookup by key in an association list (Python `d[k]` / `d.get(k)` /
reading the file named `k`). -/
def alistGet {α : Type} : List (String × α) → String → Option α
  | [], _ => none
  | (k1, v) :: rest, k => if k1 = k then some v else alistGet rest k

/-- Update by key, or append when absent (Python `d[k] = v`; dicts keep the
position of existing keys and append new ones). -/
def alistSet {α : Type} : List (String × α) → String → α → List (String × α)
  | [], k, v => [(k, v)]
  | (k1, v1) :: rest, k, v =>
    if k1 = k then (k, v) :: rest else (k1, v1) :: alistSet rest k v

/-- Static configuration of a `StandardsVersionManager` instance: the
similarity threshold and the content-similarity oracle. The oracle stands
for `_calculate_content_similarity` with whatever embedding model the
manager was constructed with; instantiating it with
`simple_text_similarity` models a manager whose embedding path is
unavailable (`embed_model=None`). -/
structure ManagerConfig where
  similarity_threshold : ℚ
  contentSim : String → String → ℚ

/-! ## Getters (`version_manager.py` lines 314-375) -/

/-- `StandardsVersionManager.get_version`: read `<version_id>.json`,
`None` when the file does not exist. -/
def get_version (store : Store) (version_id : String) : Option VersionData :=
  alistGet store.versionFiles version_id

/-- `StandardsVersionManager.get_latest_version`. -/
def get_latest_version (store : Store) (standard_id : String) :
    Option VersionData :=
  match alistGet store.standards standard_id with
  | none => none
  | some info =>
    match info.latest_version with
    | none => none
    | some latest_version_id => get_version store latest_version_id

/-- Insert a version into a list already sorted by `version_date`
descending. The condition mirrors a stable descending sort: an element
moves before another only when strictly newer or inserted earlier. -/
def insertByDateDesc (v : VersionData) :
    List VersionData → List VersionData
  | [] => [v]
  | w :: ws =>
    if w.version_date ≤ v.version_date then v :: w :: ws
    else w :: insertByDateDesc v ws

/-- Stable sort by `version_date` descending, modelling Python
`versions.sort(key=lambda v: v["version_date"], reverse=True)`. -/
def sortByDateDesc : List VersionData → List VersionData
  | [] => []
  | v :: vs => insertByDateDesc v (sortByDateDesc vs)

/-- `StandardsVersionManager.get_standard_versions`: collect the versions
listed in the index entry (skipping missing files) and sort newest first. -/
def get_standard_versions (store : Store) (standard_id : String) :
    List VersionData :=
  match alistGet store.standards standard_id with
  | none => []
  | some info =>
    sortByDateDesc (info.versions.filterMap fun vid => get_version store vid)

/-- `StandardsVersionManager.get_version_changes`: scan the change files for
the first one whose `new_version_id` matches. -/
def get_version_changes (store : Store) (version_id : String) :
    Option ChangeData :=
  (store.changeFiles.map Prod.snd).find?
    fun change_data => change_data.new_version_id == version_id

/-! ## Matching, diffing and ingestion (`version_manager.py` lines 76-312) -/

/-- The loop-body condition of `find_similar_standard` for one index entry:
name similarity above threshold, and the standard has a latest version
whose content similarity is also above threshold. -/
def similarPred (cfg : ManagerConfig) (store : Store)
    (name content : String) (p : String × StandardInfo) : Bool :=
  decide (calculate_name_similarity name p.2.name > cfg.similarity_threshold)
  && match get_latest_version store p.1 with
     | some latest_version =>
       decide (cfg.contentSim content latest_version.content >
         cfg.similarity_threshold)
     | none => false

/-- `StandardsVersionManager.find_similar_standard` with the default
`threshold=None`, hence `self.similarity_threshold`: the first standard (in
index order) whose name similarity exceeds the threshold and whose existing
latest version content similarity also exceeds it. -/
def find_similar_standard (cfg : ManagerConfig) (store : Store)
    (name content : String) : Option (String × StandardInfo) :=
  store.standards.find? (similarPred cfg store name content)

/-- Python `str.splitlines()` restricted to `\n` separators: no trailing
empty line for a trailing newline, and `[]` for the empty string. -/
def splitlines (s : String) : List String :=
  if s = "" then []
  else
    let parts := s.splitOn "\n"
    if parts.getLast? = some "" then parts.dropLast else parts

/-- `StandardsVersionManager._generate_changes_summary`: line-set diff with
an addition item, a removal item, and a fallback modification item. -/
def generate_changes_summary (old_content new_content : String) :
    List ChangeItem :=
  let old_lines := splitlines old_content
  let new_lines := splitlines new_content
  let added_lines := new_lines.filter
    fun line => !(line.trim == "") && !(old_lines.contains line)
  let removed_lines := old_lines.filter
    fun line => !(line.trim == "") && !(new_lines.contains line)
  let changes :=
    (if added_lines.isEmpty then []
     else [{ type := "addition",
             description :=
               "Added " ++ toString added_lines.length ++ " new lines",
             content := "\n".intercalate (added_lines.take 5) ++
               (if added_lines.length > 5 then "..." else "") }])
    ++
    (if removed_lines.isEmpty then []
     else [{ type := "removal",
             description :=
               "Removed " ++ toString removed_lines.length ++ " lines",
             content := "\n".intercalate (removed_lines.take 5) ++
               (if removed_lines.length > 5 then "..." else "") }])
  if changes.isEmpty then
    [{ type := "modification",
       description := "Content modified with no clear line additions/removals",
       content := "" }]
  else changes

/-- The version summary `_add_standard_version` computes: the first 200
characters, with `...` appended when truncated. -/
def summaryOf (content : String) : String :=
  if content.length > 200 then content.take 200 ++ "..." else content

/-- `StandardsVersionManager._add_standard_version`. The Python method
generates `version_id` with `uuid` and reads the clock; both are passed in
here. It indexes `standards_index["standards"][standard_id]` directly; the
`none` branch models the `KeyError` path, unreachable from `add_standard`,
by leaving the store unchanged. -/
def add_standard_version (store : Store) (standard_id content : String)
    (source_url : Option String) (version_id : String) (now : Nat) : Store :=
  match alistGet store.standards standard_id with
  | none => store
  | some info =>
    let summary := summaryOf content
    let version_data : VersionData :=
      { version_id := version_id, standard_id := standard_id,
        standard_name := info.name, version_date := now,
        summary := summary, content := content, source_url := source_url }
    { store with
      versionFiles := alistSet store.versionFiles version_id version_data,
      standards := alistSet store.standards standard_id
        { info with versions := info.versions ++ [version_id],
                    latest_version := some version_id } }

/-- `StandardsVersionManager._add_standard_change`, with the generated
`change_id` and the clock passed in. -/
def add_standard_change (store : Store)
    (standard_id previous_version_id new_version_id : String)
    (changes : List ChangeItem) (change_id : String) (now : Nat) : Store :=
  let change_data : ChangeData :=
    { change_id := change_id, standard_id := standard_id,
      previous_version_id := previous_version_id,
      new_version_id := new_version_id, change_date := now,
      summary := "Changes from version " ++ previous_version_id ++ " to " ++
        new_version_id,
      changes := changes }
  { store with changeFiles := alistSet store.changeFiles change_id change_data }

/-- Fresh identifiers for one `add_standard` call, standing for the
`uuid.uuid4()` draws (`std_...`, `v_...`, `chg_...`). -/
structure FreshIds where
  std_id : String
  version_id : String
  change_id : String
deriving DecidableEq, Repr

/-- `StandardsVersionManager.add_standard`: returns the updated store
together with `(standard_id, version_id, is_new_standard)`. The in-place
mutations plus final `_save_standards_index` of the Python method are the
returned store; the duplicate branch returns before saving, with nothing
mutated. -/
def add_standard (cfg : ManagerConfig) (store : Store) (name content : String)
    (source_url : Option String) (fresh : FreshIds) (now : Nat) :
    Store × String × String × Bool :=
  match find_similar_standard cfg store name content with
  | some similar_standard =>
    let standard_id := similar_standard.1
    match get_latest_version store standard_id with
    | some latest_version =>
      if cfg.contentSim content latest_version.content >
          cfg.similarity_threshold then
        (store, standard_id, latest_version.version_id, false)
      else
        let store₁ := add_standard_version store standard_id content
          source_url fresh.version_id now
        let store₂ := add_standard_change store₁ standard_id
          latest_version.version_id fresh.version_id
          (generate_changes_summary latest_version.content content)
          fresh.change_id now
        (store₂, standard_id, fresh.version_id, false)
    | none =>
      let store₁ := add_standard_version store standard_id content
        source_url fresh.version_id now
      (store₁, standard_id, fresh.version_id, false)
  | none =>
    let standard_id := fresh.std_id
    let store₀ := { store with
      standards := alistSet store.standards standard_id
        { name := name, created_date := now, versions := [],
          latest_version := none } }
    let store₁ := add_standard_version store₀ standard_id content
      source_url fresh.version_id now
    (store₁, standard_id, fresh.version_id, true)

/-! ## Index loading (`version_manager.py` lines 53-62) -/

/-- Possible states of `standards_index.json` on disk, as the loading code
can encounter them. -/
inductive IndexFileState where
  | missing
  | unreadable
  | malformed
  | readable (standards : List (String × StandardInfo))
deriving DecidableEq

/-- `StandardsVersionManager._load_standards_index`. The value is the
`"standards"` table. A missing file yields the fresh empty index; a file
whose contents fail to parse raises `json.JSONDecodeError`, which the
`except` clause turns into the fresh empty index; a file that exists but
cannot be read makes `open` raise `OSError`, which the
`except json.JSONDecodeError` clause does not catch, so the error
propagates (modelled as `Except.error`). -/
def load_standards_index :
    IndexFileState → Except Unit (List (String × StandardInfo))
  | IndexFileState.missing => Except.ok []
  | IndexFileState.unreadable => Except.error ()
  | IndexFileState.malformed => Except.ok []
  | IndexFileState.readable standards => Except.ok standards

/-! ## Tracker and vector-index synchronisation (`tracker.py` lines 70-181)

The vector index collaborator exposes `add_documents` and `persist`
(spec section 6); it is modelled by the list of inserted documents plus a
persist counter, which is all the claims observe. -/

/-- A llama-index `Document` as both `_add_to_vector_db` and
`_update_in_vector_db` build it: text plus metadata fields. `is_update`
and `updates_standard_id` are only set by the update path. -/
structure VectorDoc where
  text : String
  standard_id : String
  version_id : String
  standard_name : String
  version_date : Nat
  source_url : Option String
  is_update : Bool
  updates_standard_id : Option String
deriving DecidableEq, Repr

/-- Observable state of the RAG system: documents added so far and how many
times `persist()` ran. -/
structure RagSystem where
  docs : List VectorDoc
  persist_count : Nat
deriving DecidableEq, Repr

/-- `SecurityStandardsTracker._add_to_vector_db`: look the version up, on
success add one document and persist; on a missing version only log. -/
def add_to_vector_db (store : Store) (rag : RagSystem)
    (standard_id version_id : String) : RagSystem :=
  match get_version store version_id with
  | none => rag
  | some version_data =>
    { docs := rag.docs ++
        [{ text := version_data.content, standard_id := standard_id,
           version_id := version_id,
           standard_name := version_data.standard_name,
           version_date := version_data.version_date,
           source_url := version_data.source_url,
           is_update := false, updates_standard_id := none }],
      persist_count := rag.persist_count + 1 }

/-- `SecurityStandardsTracker._update_in_vector_db`: same, but the document
carries `is_update=True` and `updates_standard_id`. -/
def update_in_vector_db (store : Store) (rag : RagSystem)
    (standard_id version_id : String) : RagSystem :=
  match get_version store version_id with
  | none => rag
  | some version_data =>
    { docs := rag.docs ++
        [{ text := version_data.content, standard_id := standard_id,
           version_id := version_id,
           standard_name := version_data.standard_name,
           version_date := version_data.version_date,
           source_url := version_data.source_url,
           is_update := true, updates_standard_id := some standard_id }],
      persist_count := rag.persist_count + 1 }

/-- State the tracker threads through `process_search_results`. -/
structure TrackerState where
  store : Store
  rag : RagSystem
deriving DecidableEq, Repr

/-- The `(name, content, source_url)` triple
`web_fetcher.extract_standard_info` returns for one search result; the
fetcher is a collaborator, so results enter the loop already extracted. -/
structure ExtractedInfo where
  name : String
  content : String
  source_url : Option String
deriving DecidableEq, Repr

/-- The body of the `for result in results` loop of
`SecurityStandardsTracker.process_search_results` (`tracker.py` lines
83-106) for one result, returning the new state and the increments of
`added_count` and `updated_count`. -/
def process_result (cfg : ManagerConfig) (st : TrackerState)
    (info : ExtractedInfo) (fresh : FreshIds) (now : Nat) :
    TrackerState × Nat × Nat :=
  if info.content.length < 100 then (st, 0, 0)
  else
    let r := add_standard cfg st.store info.name info.content
      info.source_url fresh now
    let store₁ := r.1
    let standard_id := r.2.1
    let version_id := r.2.2.1
    let is_new_standard := r.2.2.2
    if is_new_standard then
      ({ store := store₁,
         rag := add_to_vector_db store₁ st.rag standard_id version_id },
       1, 0)
    else
      ({ store := store₁,
         rag := update_in_vector_db store₁ st.rag standard_id version_id },
       0, 1)

/-- `SecurityStandardsTracker.process_search_results`: fold the loop body
over the extracted results, totalling `(added_count, updated_count)`. Each
result comes with the fresh uuids and clock reading of its iteration. -/
def process_search_results (cfg : ManagerConfig) (st : TrackerState) :
    List (ExtractedInfo × FreshIds × Nat) → TrackerState × Nat × Nat
  | [] => (st, 0, 0)
  | (info, fresh, now) :: rest =>
    let r := process_result cfg st info fresh now
    let r2 := process_search_results cfg r.1 rest
    (r2.1, r.2.1 + r2.2.1, r.2.2 + r2.2.2)

/-! ## Invariants and concrete instances used by the claims -/

/-- The index invariant `add_standard` is supposed to maintain: whenever a
standard has versions, its latest-version pointer is the last appended
version id. -/
def latestInv (store : Store) : Prop :=
  ∀ sid info, alistGet store.standards sid = some info →
    info.versions ≠ [] → info.latest_version = info.versions.getLast?

/-- A manager whose `_calculate_content_similarity` is mocked to return
`0.6`, with the default threshold `0.75`, as in the spec scenario and in
`test_add_new_version` of `scripts/test_security_standards_tracker.py`. -/
def cfgMock : ManagerConfig := ⟨3 / 4, fun _ _ => 3 / 5⟩

/-- A manager constructed with `embed_model=None` and the default
`SIMILARITY_THRESHOLD = 0.75`: content similarity is the lexical
fallback. -/
def cfgFallback : ManagerConfig := ⟨3 / 4, simple_text_similarity⟩

/-- The spec scenario content `"A"*50`. -/
def contentA : String := String.mk (List.replicate 50 'A')

/-- The spec scenario updated content. -/
def contentB : String := contentA ++ " extra unique clause text"

/-- A 100-character content, long enough for the tracker not to skip it. -/
def longContent : String := String.mk (List.replicate 100 'a')

/-- Index entry of the pre-existing "Test Standard" with one version. -/
def testInfo : StandardInfo := ⟨"Test Standard", 0, ["v_1"], some "v_1"⟩

/-- Version record of the single existing version, content `"A"*50`. -/
def testV1 : VersionData :=
  ⟨"v_1", "std_1", "Test Standard", 0, contentA, contentA, none⟩

/-- Store holding exactly the standard "Test Standard" with one version. -/
def testStore : Store := ⟨[("std_1", testInfo)], [("v_1", testV1)], []⟩

/-- Version record with the 100-character content, for the tracker
scenario. -/
def dupV1 : VersionData :=
  ⟨"v_1", "std_1", "Test Standard", 1, longContent, longContent, none⟩

/-- Store holding "Test Standard" whose only version has the 100-character
content. -/
def dupStore : Store :=
  ⟨[("std_1", ⟨"Test Standard", 0, ["v_1"], some "v_1"⟩)],
   [("v_1", dupV1)], []⟩

/-! ## Association-list lemmas -/

theorem alistGet_alistSet {α : Type} (l : List (String × α)) (k : String)
    (v : α) (k' : String) :
    alistGet (alistSet l k v) k' = if k = k' then some v else alistGet l k' := by
  induction l with
  | nil =>
    by_cases h : k = k' <;> simp [alistSet, alistGet, h]
  | cons p rest ih =>
    obtain ⟨k1, v1⟩ := p
    by_cases h1 : k1 = k
    · subst h1
      by_cases h2 : k1 = k' <;> simp [alistSet, alistGet, h2]
    · by_cases h2 : k1 = k'
      · subst h2
        have : ¬ k = k1 := fun h => h1 h.symm
        simp [alistSet, alistGet, h1, this]
      · simp [alistSet, alistGet, h1, h2, ih]

theorem alistSet_of_fresh {α : Type} (l : List (String × α)) (k : String)
    (v : α) (h : alistGet l k = none) : alistSet l k v = l ++ [(k, v)] := by
  induction l with
  | nil => simp [alistSet]
  | cons p rest ih =>
    obtain ⟨k1, v1⟩ := p
    by_cases h1 : k1 = k
    · simp [alistGet, h1] at h
    · simp [alistGet, h1] at h
      simp [alistSet, h1, ih h]

theorem alistSet_alistSet {α : Type} (l : List (String × α)) (k : String)
    (v w : α) : alistSet (alistSet l k v) k w = alistSet l k w := by
  induction l with
  | nil => simp [alistSet]
  | cons p rest ih =>
    obtain ⟨k1, v1⟩ := p
    by_cases h1 : k1 = k
    · simp [alistSet, h1]
    · simp [alistSet, h1, ih]

theorem alistGet_eq_none_iff {α : Type} (l : List (String × α)) (k : String) :
    alistGet l k = none ↔ ∀ p ∈ l, p.1 ≠ k := by
  induction l with
  | nil => simp [alistGet]
  | cons p rest ih =>
    obtain ⟨k1, v1⟩ := p
    by_cases h1 : k1 = k <;> simp [alistGet, h1, ih]

theorem alistGet_append_left {α : Type} {l1 : List (String × α)} {k : String}
    {v : α} (l2 : List (String × α)) (h : alistGet l1 k = some v) :
    alistGet (l1 ++ l2) k = some v := by
  induction l1 with
  | nil => simp [alistGet] at h
  | cons p rest ih =>
    obtain ⟨k1, v1⟩ := p
    by_cases h1 : k1 = k
    · simp [alistGet, h1] at h ⊢
      exact h
    · simp [alistGet, h1] at h ⊢
      exact ih h

theorem alistGet_append_right {α : Type} {l1 : List (String × α)} {k : String}
    (l2 : List (String × α)) (h : alistGet l1 k = none) :
    alistGet (l1 ++ l2) k = alistGet l2 k := by
  induction l1 with
  | nil => simp [alistGet]
  | cons p rest ih =>
    obtain ⟨k1, v1⟩ := p
    by_cases h1 : k1 = k
    · simp [alistGet, h1] at h
    · simp [alistGet, h1] at h ⊢
      exact ih h

/-! ## Jaccard similarity lemmas -/

theorem jaccardSets_nonneg (A B : Finset String) : 0 ≤ jaccardSets A B := by
  unfold jaccardSets
  split
  · exact le_refl 0
  · split
    · positivity
    · exact le_refl 0

theorem jaccardSets_le_one (A B : Finset String) : jaccardSets A B ≤ 1 := by
  unfold jaccardSets
  split
  · exact zero_le_one
  · split
    · rename_i hcard
      rw [div_le_one (by exact_mod_cast hcard)]
      exact_mod_cast Finset.card_le_card Finset.inter_subset_union
    · exact zero_le_one

theorem jaccardSets_self {A : Finset String} (h : A ≠ ∅) :
    jaccardSets A A = 1 := by
  have hcard : 0 < A.card :=
    Finset.card_pos.mpr (Finset.nonempty_iff_ne_empty.mpr h)
  unfold jaccardSets
  rw [if_neg (by simp [h]), Finset.inter_self, Finset.union_self,
    if_pos hcard, div_self (by exact_mod_cast hcard.ne')]

theorem jaccardSets_eq_zero (A B : Finset String)
    (h : jaccardSets A B = 0) : A = ∅ ∨ B = ∅ ∨ A ∩ B = ∅ := by
  unfold jaccardSets at h
  by_cases he : A = ∅ ∨ B = ∅
  · rcases he with he | he
    · exact Or.inl he
    · exact Or.inr (Or.inl he)
  · rw [if_neg he] at h
    refine Or.inr (Or.inr ?_)
    split at h
    · rw [div_eq_zero_iff] at h
      rcases h with h | h
      · exact Finset.card_eq_zero.mp (Nat.cast_eq_zero.mp h)
      · rename_i hcard
        exact absurd (Finset.card_eq_zero.mp (Nat.cast_eq_zero.mp h))
          (Nat.pos_iff_ne_zero.mp hcard ∘ Finset.card_eq_zero.mpr)
    · rename_i hcard
      push_neg at he
      obtain ⟨hA, hB⟩ := he
      exfalso
      apply hcard
      refine Finset.card_pos.mpr ?_
      obtain ⟨a, ha⟩ := Finset.nonempty_iff_ne_empty.mpr hA
      exact ⟨a, Finset.mem_union_left _ ha⟩

theorem alistGet_isSome_of_mem {α : Type} {l : List (String × α)}
    {p : String × α} (h : p ∈ l) : ∃ y, alistGet l p.1 = some y := by
  induction l with
  | nil => cases h
  | cons q rest ih =>
    rcases List.mem_cons.mp h with h | h
    · subst h
      exact ⟨p.2, by unfold alistGet; rw [if_pos rfl]⟩
    · by_cases e : q.1 = p.1
      · exact ⟨q.2, by unfold alistGet; rw [if_pos e]⟩
      · obtain ⟨y, hy⟩ := ih h
        exact ⟨y, by unfold alistGet; rw [if_neg e]; exact hy⟩

theorem calculate_name_similarity_self {name : String}
    (h : tokenSet name ≠ ∅) : calculate_name_similarity name name = 1 :=
  jaccardSets_self h

theorem simple_text_similarity_self {t : String}
    (h : tokenSet t ≠ ∅) : simple_text_similarity t t = 1 :=
  jaccardSets_self h

/-! ## `add_standard` path lemmas -/

theorem find_similar_spec {cfg : ManagerConfig} {store : Store}
    {name content : String} {s : String × StandardInfo}
    (h : find_similar_standard cfg store name content = some s) :
    calculate_name_similarity name s.2.name > cfg.similarity_threshold ∧
    ∃ lv, get_latest_version store s.1 = some lv ∧
      cfg.contentSim content lv.content > cfg.similarity_threshold := by
  have hp : similarPred cfg store name content s = true := List.find?_some h
  unfold similarPred at hp
  rw [Bool.and_eq_true] at hp
  obtain ⟨h1, h2⟩ := hp
  refine ⟨by simpa using h1, ?_⟩
  cases hget : get_latest_version store s.1 with
  | none => rw [hget] at h2; simp at h2
  | some lv =>
    rw [hget] at h2
    exact ⟨lv, rfl, by simpa using h2⟩

theorem add_standard_of_duplicate {cfg : ManagerConfig} {store : Store}
    {name content : String} {s : String × StandardInfo} {lv : VersionData}
    (url : Option String) (fresh : FreshIds) (now : Nat)
    (hfind : find_similar_standard cfg store name content = some s)
    (hget : get_latest_version store s.1 = some lv)
    (hsim : cfg.contentSim content lv.content > cfg.similarity_threshold) :
    add_standard cfg store name content url fresh now =
      (store, s.1, lv.version_id, false) := by
  simp [add_standard, hfind, hget, hsim]

theorem add_standard_of_find_none {cfg : ManagerConfig} {store : Store}
    {name content : String} (url : Option String) (fresh : FreshIds)
    (now : Nat)
    (hfind : find_similar_standard cfg store name content = none) :
    add_standard cfg store name content url fresh now =
      ({ standards := alistSet store.standards fresh.std_id
           ⟨name, now, [fresh.version_id], some fresh.version_id⟩,
         versionFiles := alistSet store.versionFiles fresh.version_id
           ⟨fresh.version_id, fresh.std_id, name, now, summaryOf content,
            content, url⟩,
         changeFiles := store.changeFiles },
       fresh.std_id, fresh.version_id, true) := by
  have hget0 : alistGet
      (alistSet store.standards fresh.std_id
        ⟨name, now, [], none⟩) fresh.std_id =
      some ⟨name, now, [], none⟩ := by
    rw [alistGet_alistSet, if_pos rfl]
  simp [add_standard, hfind, add_standard_version, hget0, alistSet_alistSet]

/-! ## Claims -/

/-- C4: for every name and content dissimilar (name similarity and
latest-version content similarity both at or below the threshold) from
every existing standard, one `add_standard` call appends exactly one new
standard entry (its version list built from empty by appending the one new
version id), exactly one version record, no change record, and returns
`is_new_standard = True`. -/
theorem add_standard_creates_new_standard
    (cfg : ManagerConfig) (store : Store) (name content : String)
    (url : Option String) (fresh : FreshIds) (now : Nat)
    (hname : ∀ p ∈ store.standards,
      calculate_name_similarity name p.2.name ≤ cfg.similarity_threshold)
    (hcontent : ∀ p ∈ store.standards, ∀ lv,
      get_latest_version store p.1 = some lv →
      cfg.contentSim content lv.content ≤ cfg.similarity_threshold)
    (hfs : alistGet store.standards fresh.std_id = none)
    (hfv : alistGet store.versionFiles fresh.version_id = none) :
    add_standard cfg store name content url fresh now =
      ({ standards := store.standards ++
           [(fresh.std_id,
             ⟨name, now, [fresh.version_id], some fresh.version_id⟩)],
         versionFiles := store.versionFiles ++
           [(fresh.version_id,
             ⟨fresh.version_id, fresh.std_id, name, now, summaryOf content,
              content, url⟩)],
         changeFiles := store.changeFiles },
       fresh.std_id, fresh.version_id, true) := by
  have hfind : find_similar_standard cfg store name content = none := by
    unfold find_similar_standard
    rw [List.find?_eq_none]
    intro p hp
    unfold similarPred
    have h1 : ¬ (cfg.similarity_threshold <
        calculate_name_similarity name p.2.name) :=
      not_lt.mpr (hname p hp)
    simp [h1]
  rw [add_standard_of_find_none url fresh now hfind,
    alistSet_of_fresh _ _ _ hfs, alistSet_of_fresh _ _ _ hfv]

/-- C4 witness: adding "GDPR" with unrelated content to the store holding
only "Test Standard" appends one standard and one version and no change
record. -/
theorem add_standard_creates_new_standard_witness :
    (∀ p ∈ testStore.standards, calculate_name_similarity "GDPR" p.2.name ≤
      cfgFallback.similarity_threshold) ∧
    add_standard cfgFallback testStore "GDPR" "totally different" none
      ⟨"std_2", "v_2", "chg_2"⟩ 5 =
      ({ standards := testStore.standards ++
           [("std_2", ⟨"GDPR", 5, ["v_2"], some "v_2"⟩)],
         versionFiles := testStore.versionFiles ++
           [("v_2", ⟨"v_2", "std_2", "GDPR", 5,
             summaryOf "totally different", "totally different", none⟩)],
         changeFiles := testStore.changeFiles },
       "std_2", "v_2", true) := by
  have hval : calculate_name_similarity "GDPR" "Test Standard" = 0 := by
    have h1 : (tokenSet "GDPR" ∩ tokenSet "Test Standard").card = 0 := by
      decide
    unfold calculate_name_similarity jaccardSets
    rw [if_neg (by decide), if_pos (by decide), h1, Nat.cast_zero, zero_div]
  have hsim0 : simple_text_similarity "totally different" contentA = 0 := by
    have h1 : (tokenSet "totally different" ∩ tokenSet contentA).card = 0 := by
      decide
    unfold simple_text_similarity jaccardSets
    rw [if_neg (by decide), if_pos (by decide), h1, Nat.cast_zero, zero_div]
  have hname : ∀ p ∈ testStore.standards,
      calculate_name_similarity "GDPR" p.2.name ≤
        cfgFallback.similarity_threshold := by
    intro p hp
    have hp' : p = ("std_1", testInfo) := by simpa [testStore] using hp
    subst hp'
    show calculate_name_similarity "GDPR" "Test Standard" ≤ (3 : ℚ) / 4
    rw [hval]
    norm_num
  refine ⟨hname, add_standard_creates_new_standard cfgFallback testStore
    "GDPR" "totally different" none ⟨"std_2", "v_2", "chg_2"⟩ 5 hname
    ?_ (by decide) (by decide)⟩
  intro p hp lv hlv
  have hp' : p = ("std_1", testInfo) := by simpa [testStore] using hp
  subst hp'
  have hlat : get_latest_version testStore "std_1" = some testV1 := by decide
  have hlv' : lv = testV1 := by
    rw [show (("std_1", testInfo) : String × StandardInfo).1 = "std_1"
      from rfl, hlat] at hlv
    exact (Option.some.injEq _ _ ▸ hlv).symm
  subst hlv'
  show simple_text_similarity "totally different" testV1.content ≤ (3 : ℚ) / 4
  rw [show testV1.content = contentA from rfl, hsim0]
  norm_num

/-- C10: one `add_standard` call leaves every pre-existing standard entry
with its version list either unchanged or extended by exactly the one
freshly appended version id, and preserves the invariant that a non-empty
version list ends in the id the latest-version pointer names. -/
theorem add_standard_versions_append_invariant
    (cfg : ManagerConfig) (store : Store) (name content : String)
    (url : Option String) (fresh : FreshIds) (now : Nat)
    (hfs : alistGet store.standards fresh.std_id = none)
    (hinv : latestInv store) :
    latestInv (add_standard cfg store name content url fresh now).1 ∧
    ∀ sid info, alistGet store.standards sid = some info →
      ∃ info',
        alistGet (add_standard cfg store name content url fresh now).1.standards
          sid = some info' ∧
        (info'.versions = info.versions ∨
         info'.versions = info.versions ++ [fresh.version_id]) := by
  cases hfind : find_similar_standard cfg store name content with
  | some s =>
    obtain ⟨hn, lv, hget, hsim⟩ := find_similar_spec hfind
    rw [add_standard_of_duplicate url fresh now hfind hget hsim]
    exact ⟨hinv, fun sid info h => ⟨info, h, Or.inl rfl⟩⟩
  | none =>
    rw [add_standard_of_find_none url fresh now hfind]
    constructor
    · intro sid info h hne
      simp only [alistGet_alistSet] at h
      by_cases e : fresh.std_id = sid
      · rw [if_pos e] at h
        cases h
        simp
      · rw [if_neg e] at h
        exact hinv sid info h hne
    · intro sid info h
      have e : fresh.std_id ≠ sid := by
        intro e
        rw [e] at hfs
        rw [hfs] at h
        cases h
      refine ⟨info, ?_, Or.inl rfl⟩
      show alistGet (alistSet store.standards fresh.std_id _) sid = some info
      rw [alistGet_alistSet, if_neg e]
      exact h

/-- C10 witness: the invariant instantiated on the one-standard store. -/
theorem add_standard_versions_append_invariant_witness :
    latestInv (add_standard cfgFallback testStore "New Std" "body" none
      ⟨"std_9", "v_9", "chg_9"⟩ 3).1 ∧
    ∀ sid info, alistGet testStore.standards sid = some info →
      ∃ info',
        alistGet (add_standard cfgFallback testStore "New Std" "body" none
          ⟨"std_9", "v_9", "chg_9"⟩ 3).1.standards sid = some info' ∧
        (info'.versions = info.versions ∨
         info'.versions = info.versions ++ ["v_9"]) :=
  add_standard_versions_append_invariant cfgFallback testStore "New Std"
    "body" none ⟨"std_9", "v_9", "chg_9"⟩ 3 (by decide)
    (by
      intro sid info h _
      by_cases e : ("std_1" : String) = sid
      · have h' : info = testInfo := by
          have := h
          simp [testStore, alistGet, e] at this
          exact this.symm
        subst h'
        decide
      · simp [testStore, alistGet, e] at h)

/-- C1: the spec scenario (and the repository test `test_add_new_version`)
expects that re-adding "Test Standard" with changed content whose mocked
content similarity is `0.6 < 0.75` yields the same standard id, a new
version id, `is_new_standard=False` and one change record. The code
instead finds no similar standard — `find_similar_standard` itself
requires content similarity above the threshold — and creates a second,
unrelated standard: `is_new_standard=True`, a fresh standard id, and no
change record. -/
theorem add_standard_mocked_scenario_creates_second_standard :
    add_standard cfgMock testStore "Test Standard" contentB none
      ⟨"std_2", "v_2", "chg_2"⟩ 1 =
      ({ standards := testStore.standards ++
           [("std_2", ⟨"Test Standard", 1, ["v_2"], some "v_2"⟩)],
         versionFiles := testStore.versionFiles ++
           [("v_2", ⟨"v_2", "std_2", "Test Standard", 1, summaryOf contentB,
             contentB, none⟩)],
         changeFiles := testStore.changeFiles },
       "std_2", "v_2", true) := by
  have hfind : find_similar_standard cfgMock testStore "Test Standard"
      contentB = none := by
    unfold find_similar_standard
    rw [List.find?_eq_none]
    intro p hp
    have hp' : p = ("std_1", testInfo) := by simpa [testStore] using hp
    subst hp'
    unfold similarPred
    have hlat : get_latest_version testStore "std_1" = some testV1 := by
      decide
    have hns : ¬ ((3 : ℚ) / 4 < 3 / 5) := by norm_num
    simp [hlat, cfgMock, hns]
  rw [add_standard_of_find_none none _ 1 hfind,
    alistSet_of_fresh _ _ _ (by decide), alistSet_of_fresh _ _ _ (by decide)]

/-- C3 counterexample: processing a search result that is a silent
duplicate (the existing latest version id is returned, no new version is
created: the store comes back unchanged) still performs a vector-index
write: one `is_update` document is added and one persist happens. -/
theorem tracker_duplicate_performs_vector_write :
    process_result cfgFallback ⟨dupStore, ⟨[], 0⟩⟩
      ⟨"Test Standard", longContent, none⟩ ⟨"std_2", "v_2", "chg_2"⟩ 7 =
      (⟨dupStore,
        ⟨[⟨longContent, "std_1", "v_1", "Test Standard", 1, none, true,
           some "std_1"⟩], 1⟩⟩, 0, 1) := by
  have hname1 : calculate_name_similarity "Test Standard" "Test Standard" =
      1 := calculate_name_similarity_self (by decide)
  have hsim1 : simple_text_similarity longContent longContent = 1 :=
    simple_text_similarity_self (by decide)
  have h34 : ((3 : ℚ) / 4 < 1) := by norm_num
  have hlat : get_latest_version dupStore "std_1" = some dupV1 := by decide
  have hfind : find_similar_standard cfgFallback dupStore "Test Standard"
      longContent =
      some ("std_1", ⟨"Test Standard", 0, ["v_1"], some "v_1"⟩) := by
    show List.find? _ dupStore.standards = _
    rw [show dupStore.standards =
      [("std_1", ⟨"Test Standard", 0, ["v_1"], some "v_1"⟩)] from rfl]
    apply List.find?_cons_of_pos
    unfold similarPred
    simp only [hlat]
    simp [cfgFallback, hname1, h34,
      show dupV1.content = longContent from rfl, hsim1]
  have hsimq : cfgFallback.contentSim longContent dupV1.content >
      cfgFallback.similarity_threshold := by
    show (3 : ℚ) / 4 < simple_text_similarity longContent dupV1.content
    rw [show dupV1.content = longContent from rfl, hsim1]
    exact h34
  have hdup := add_standard_of_duplicate none
    (⟨"std_2", "v_2", "chg_2"⟩ : FreshIds) 7 hfind hlat hsimq
  simp only [process_result, hdup, update_in_vector_db,
    show get_version dupStore "v_1" = some dupV1 from by decide,
    if_neg (show ¬ (("Test Standard" : String), longContent,
      (none : Option String)).2.1.length < 100 from by decide)]
  rfl

/-- C3 (amended): for every search result whose `add_standard` call
detects a duplicate (an existing standard matches and the latest version
content similarity is above threshold, so the existing latest version id
is returned and the store is unchanged), the tracker takes the update
branch anyway: it adds exactly one `is_update` document for the existing
version to the vector index and persists once. -/
theorem process_result_duplicate_writes_update
    (cfg : ManagerConfig) (st : TrackerState) (info : ExtractedInfo)
    (fresh : FreshIds) (now : Nat) (s : String × StandardInfo)
    (lv vd : VersionData)
    (hlen : ¬ info.content.length < 100)
    (hfind : find_similar_standard cfg st.store info.name info.content =
      some s)
    (hget : get_latest_version st.store s.1 = some lv)
    (hsim : cfg.contentSim info.content lv.content >
      cfg.similarity_threshold)
    (hv : get_version st.store lv.version_id = some vd) :
    process_result cfg st info fresh now =
      (⟨st.store,
        ⟨st.rag.docs ++
          [⟨vd.content, s.1, lv.version_id, vd.standard_name,
            vd.version_date, vd.source_url, true, some s.1⟩],
         st.rag.persist_count + 1⟩⟩, 0, 1) := by
  simp only [process_result, if_neg hlen,
    add_standard_of_duplicate info.source_url fresh now hfind hget hsim,
    update_in_vector_db, hv]
  rfl

/-- C3 witness: the amended behaviour at the concrete duplicate result. -/
theorem process_result_duplicate_writes_update_witness :
    process_result cfgFallback ⟨dupStore, ⟨[], 0⟩⟩
      ⟨"Test Standard", longContent, none⟩ ⟨"std_3", "v_3", "chg_3"⟩ 9 =
      (⟨dupStore,
        ⟨[⟨longContent, "std_1", "v_1", "Test Standard", 1, none, true,
           some "std_1"⟩], 1⟩⟩, 0, 1) := by
  have hsim1 : simple_text_similarity longContent longContent = 1 :=
    simple_text_similarity_self (by decide)
  have hfind : find_similar_standard cfgFallback dupStore "Test Standard"
      longContent =
      some ("std_1", ⟨"Test Standard", 0, ["v_1"], some "v_1"⟩) := by
    show List.find? _ dupStore.standards = _
    rw [show dupStore.standards =
      [("std_1", ⟨"Test Standard", 0, ["v_1"], some "v_1"⟩)] from rfl]
    apply List.find?_cons_of_pos
    unfold similarPred
    simp only [show get_latest_version dupStore "std_1" = some dupV1 from
      by decide]
    simp [cfgFallback,
      calculate_name_similarity_self
        (show tokenSet "Test Standard" ≠ ∅ from by decide),
      show ((3 : ℚ) / 4 < 1) from by norm_num,
      show dupV1.content = longContent from rfl, hsim1]
  exact process_result_duplicate_writes_update cfgFallback
    ⟨dupStore, ⟨[], 0⟩⟩ ⟨"Test Standard", longContent, none⟩
    ⟨"std_3", "v_3", "chg_3"⟩ 9
    ("std_1", ⟨"Test Standard", 0, ["v_1"], some "v_1"⟩) dupV1 dupV1
    (by decide) hfind (by decide)
    (by
      show (3 : ℚ) / 4 < simple_text_similarity longContent dupV1.content
      rw [show dupV1.content = longContent from rfl, hsim1]
      norm_num)
    (by decide)

/-- C2 counterexample: a name whose normalized token set is empty defeats
the idempotence claim. `"."` normalizes to no tokens, so its name
similarity to itself is `0.0`; even though the content self-similarity `1`
exceeds the threshold `0.75`, the second identical `add_standard` call
finds no similar standard and returns `is_new_standard=True` with a fresh
version, not the first call's version id. -/
theorem add_standard_twice_empty_name_not_idempotent :
    simple_text_similarity "hello world" "hello world" >
      cfgFallback.similarity_threshold ∧
    (add_standard cfgFallback
      (add_standard cfgFallback ⟨[], [], []⟩ "." "hello world" none
        ⟨"std_1", "v_1", "chg_1"⟩ 0).1
      "." "hello world" none ⟨"std_2", "v_2", "chg_2"⟩ 1).2.2.2 = true := by
  constructor
  · show (3 : ℚ) / 4 < simple_text_similarity "hello world" "hello world"
    rw [simple_text_similarity_self (by decide)]
    norm_num
  · have hfind₀ : find_similar_standard cfgFallback ⟨[], [], []⟩ "."
        "hello world" = none := rfl
    rw [add_standard_of_find_none none _ 0 hfind₀]
    have h0 : calculate_name_similarity "." "." = 0 := by
      unfold calculate_name_similarity jaccardSets
      rw [if_pos (Or.inl (by decide))]
    have hfind₁ : find_similar_standard cfgFallback
        ⟨[("std_1", ⟨".", 0, ["v_1"], some "v_1"⟩)],
         [("v_1", ⟨"v_1", "std_1", ".", 0, summaryOf "hello world",
           "hello world", none⟩)], []⟩ "." "hello world" = none := by
      unfold find_similar_standard
      rw [List.find?_eq_none]
      intro p hp
      have hp' : p = ("std_1", ⟨".", 0, ["v_1"], some "v_1"⟩) := by
        simpa using hp
      subst hp'
      unfold similarPred
      simp [h0, cfgFallback, show ¬ ((3 : ℚ) / 4 < 0) from by norm_num]
    rw [show ((⟨alistSet ([] : List (String × StandardInfo)) "std_1"
        ⟨".", 0, ["v_1"], some "v_1"⟩,
        alistSet ([] : List (String × VersionData)) "v_1"
        ⟨"v_1", "std_1", ".", 0, summaryOf "hello world", "hello world",
          none⟩, []⟩ : Store)) =
      (⟨[("std_1", ⟨".", 0, ["v_1"], some "v_1"⟩)],
        [("v_1", ⟨"v_1", "std_1", ".", 0, summaryOf "hello world",
          "hello world", none⟩)], []⟩ : Store) from rfl,
      add_standard_of_find_none none _ 1 hfind₁]

/-- C2 (amended): for every name with a non-empty normalized token set and
every content whose self-similarity under the manager's oracle exceeds the
threshold (< 1), with fresh uuids for the first call and no dangling
latest-version pointer, calling `add_standard(name, content)` a second
time with unchanged content returns `is_new_standard=False`, the same
`standard_id` and `version_id` as the first call, and leaves the store
unchanged (in particular the standard's version list is unchanged by the
second call). -/
theorem add_standard_second_call_idempotent
    (cfg : ManagerConfig) (store : Store) (name content : String)
    (url : Option String) (fresh₁ fresh₂ : FreshIds) (now₁ now₂ : Nat)
    (hname : tokenSet name ≠ ∅)
    (hthr : cfg.similarity_threshold < 1)
    (hsim : cfg.contentSim content content > cfg.similarity_threshold)
    (hfs : alistGet store.standards fresh₁.std_id = none)
    (hfv : alistGet store.versionFiles fresh₁.version_id = none)
    (hwf : ∀ sid info lv, alistGet store.standards sid = some info →
      info.latest_version = some lv →
      (alistGet store.versionFiles lv).isSome = true) :
    add_standard cfg (add_standard cfg store name content url fresh₁ now₁).1
      name content url fresh₂ now₂ =
      ((add_standard cfg store name content url fresh₁ now₁).1,
       (add_standard cfg store name content url fresh₁ now₁).2.1,
       (add_standard cfg store name content url fresh₁ now₁).2.2.1,
       false) := by
  cases hfind : find_similar_standard cfg store name content with
  | some s =>
    obtain ⟨hn, lv, hget, hslv⟩ := find_similar_spec hfind
    rw [add_standard_of_duplicate url fresh₁ now₁ hfind hget hslv]
    show add_standard cfg store name content url fresh₂ now₂ =
      (store, s.1, lv.version_id, false)
    exact add_standard_of_duplicate url fresh₂ now₂ hfind hget hslv
  | none =>
    rw [add_standard_of_find_none url fresh₁ now₁ hfind]
    have hglv : get_latest_version
        ⟨alistSet store.standards fresh₁.std_id
          ⟨name, now₁, [fresh₁.version_id], some fresh₁.version_id⟩,
         alistSet store.versionFiles fresh₁.version_id
          ⟨fresh₁.version_id, fresh₁.std_id, name, now₁, summaryOf content,
           content, url⟩,
         store.changeFiles⟩ fresh₁.std_id =
        some ⟨fresh₁.version_id, fresh₁.std_id, name, now₁,
          summaryOf content, content, url⟩ := by
      simp [get_latest_version, get_version, alistGet_alistSet]
    have hpred : ∀ p ∈ store.standards,
        similarPred cfg
          ⟨alistSet store.standards fresh₁.std_id
            ⟨name, now₁, [fresh₁.version_id], some fresh₁.version_id⟩,
           alistSet store.versionFiles fresh₁.version_id
            ⟨fresh₁.version_id, fresh₁.std_id, name, now₁,
             summaryOf content, content, url⟩,
           store.changeFiles⟩ name content p =
        similarPred cfg store name content p := by
      intro p hp
      obtain ⟨y, hy⟩ := alistGet_isSome_of_mem hp
      have hne : fresh₁.std_id ≠ p.1 := by
        intro e
        rw [← e] at hy
        rw [hfs] at hy
        cases hy
      have hy₁ : alistGet
          (alistSet store.standards fresh₁.std_id
            ⟨name, now₁, [fresh₁.version_id], some fresh₁.version_id⟩)
          p.1 = some y := by
        rw [alistGet_alistSet, if_neg hne]
        exact hy
      have hsame : get_latest_version
          ⟨alistSet store.standards fresh₁.std_id
            ⟨name, now₁, [fresh₁.version_id], some fresh₁.version_id⟩,
           alistSet store.versionFiles fresh₁.version_id
            ⟨fresh₁.version_id, fresh₁.std_id, name, now₁,
             summaryOf content, content, url⟩,
           store.changeFiles⟩ p.1 =
          get_latest_version store p.1 := by
        cases hl : y.latest_version with
        | none => simp only [get_latest_version, hy₁, hy, hl]
        | some lvid =>
          simp only [get_latest_version, hy₁, hy, hl]
          have hs := hwf p.1 y lvid hy hl
          have hnev : fresh₁.version_id ≠ lvid := by
            intro e
            rw [← e] at hs
            rw [hfv] at hs
            simp at hs
          show alistGet
            (alistSet store.versionFiles fresh₁.version_id
              ⟨fresh₁.version_id, fresh₁.std_id, name, now₁,
               summaryOf content, content, url⟩) lvid =
            alistGet store.versionFiles lvid
          rw [alistGet_alistSet, if_neg hnev]
      unfold similarPred
      rw [hsame]
    have key : ∀ P : String × StandardInfo → Bool,
        (∀ x ∈ store.standards, P x = similarPred cfg store name content x) →
        P (fresh₁.std_id,
          ⟨name, now₁, [fresh₁.version_id], some fresh₁.version_id⟩) =
          true →
        List.find? P (alistSet store.standards fresh₁.std_id
          ⟨name, now₁, [fresh₁.version_id], some fresh₁.version_id⟩) =
          some (fresh₁.std_id,
            ⟨name, now₁, [fresh₁.version_id], some fresh₁.version_id⟩) := by
      intro P hPeq hPtrue
      rw [alistSet_of_fresh _ _ _ hfs, List.find?_append]
      have hleft : store.standards.find? P = none := by
        rw [List.find?_eq_none]
        intro x hx
        rw [hPeq x hx]
        exact List.find?_eq_none.mp hfind x hx
      rw [hleft, Option.none_or]
      exact List.find?_cons_of_pos _ hPtrue
    have hPtrue : similarPred cfg
        ⟨alistSet store.standards fresh₁.std_id
          ⟨name, now₁, [fresh₁.version_id], some fresh₁.version_id⟩,
         alistSet store.versionFiles fresh₁.version_id
          ⟨fresh₁.version_id, fresh₁.std_id, name, now₁, summaryOf content,
           content, url⟩,
         store.changeFiles⟩ name content
        (fresh₁.std_id,
          ⟨name, now₁, [fresh₁.version_id], some fresh₁.version_id⟩) =
        true := by
      unfold similarPred
      simp only [hglv]
      simp [calculate_name_similarity_self hname, hthr, hsim]
    have hfind₁ : find_similar_standard cfg
        ⟨alistSet store.standards fresh₁.std_id
          ⟨name, now₁, [fresh₁.version_id], some fresh₁.version_id⟩,
         alistSet store.versionFiles fresh₁.version_id
          ⟨fresh₁.version_id, fresh₁.std_id, name, now₁, summaryOf content,
           content, url⟩,
         store.changeFiles⟩ name content =
        some (fresh₁.std_id,
          ⟨name, now₁, [fresh₁.version_id], some fresh₁.version_id⟩) :=
      key _ hpred hPtrue
    exact add_standard_of_duplicate url fresh₂ now₂ hfind₁ hglv hsim

/-- C2 witness: the amended idempotence at concrete inputs, with the
lexical fallback oracle, the default threshold, name "pci dss" and
content "hello world". -/
theorem add_standard_second_call_idempotent_witness :
    tokenSet "pci dss" ≠ ∅ ∧
    cfgFallback.similarity_threshold < 1 ∧
    cfgFallback.contentSim "hello world" "hello world" >
      cfgFallback.similarity_threshold ∧
    add_standard cfgFallback
      (add_standard cfgFallback ⟨[], [], []⟩ "pci dss" "hello world" none
        ⟨"std_1", "v_1", "chg_1"⟩ 0).1
      "pci dss" "hello world" none ⟨"std_2", "v_2", "chg_2"⟩ 1 =
      ((add_standard cfgFallback ⟨[], [], []⟩ "pci dss" "hello world" none
        ⟨"std_1", "v_1", "chg_1"⟩ 0).1,
       (add_standard cfgFallback ⟨[], [], []⟩ "pci dss" "hello world" none
        ⟨"std_1", "v_1", "chg_1"⟩ 0).2.1,
       (add_standard cfgFallback ⟨[], [], []⟩ "pci dss" "hello world" none
        ⟨"std_1", "v_1", "chg_1"⟩ 0).2.2.1,
       false) := by
  have hsim : cfgFallback.contentSim "hello world" "hello world" >
      cfgFallback.similarity_threshold := by
    show (3 : ℚ) / 4 < simple_text_similarity "hello world" "hello world"
    rw [simple_text_similarity_self (by decide)]
    norm_num
  exact ⟨by decide, by norm_num [cfgFallback], hsim,
    add_standard_second_call_idempotent cfgFallback ⟨[], [], []⟩ "pci dss"
      "hello world" none ⟨"std_1", "v_1", "chg_1"⟩ ⟨"std_2", "v_2", "chg_2"⟩
      0 1 (by decide) (by norm_num [cfgFallback]) hsim rfl rfl
      (by intro sid info lv h _; simp [alistGet] at h)⟩

/-- C7: for every id not present in the store, `get_version` returns
`None`, `get_latest_version` returns `None`, `get_standard_versions`
returns an empty list and `get_version_changes` returns `None`; the
getters are total functions of the state, so none of them raises on an
unknown id. -/
theorem getters_none_on_unknown_id (store : Store) (id : String) :
    ((∀ p ∈ store.versionFiles, p.1 ≠ id) → get_version store id = none) ∧
    ((∀ p ∈ store.standards, p.1 ≠ id) → get_latest_version store id = none) ∧
    ((∀ p ∈ store.standards, p.1 ≠ id) →
      get_standard_versions store id = []) ∧
    ((∀ p ∈ store.changeFiles, p.2.new_version_id ≠ id) →
      get_version_changes store id = none) := by
  refine ⟨?_, ?_, ?_, ?_⟩
  · intro h
    exact (alistGet_eq_none_iff _ _).mpr h
  · intro h
    unfold get_latest_version
    rw [(alistGet_eq_none_iff _ _).mpr h]
  · intro h
    unfold get_standard_versions
    rw [(alistGet_eq_none_iff _ _).mpr h]
  · intro h
    unfold get_version_changes
    rw [List.find?_eq_none]
    intro c hc
    obtain ⟨p, hp, rfl⟩ := List.mem_map.mp hc
    simpa using h p hp

/-- C7 witness: on a store holding one standard, one version and one change
record, every getter answers the unknown id `"nonexistent_id"` with
`None` or the empty list. -/
theorem getters_none_on_unknown_id_witness :
    get_version
      ⟨[("std_a", ⟨"A", 0, ["v_a"], some "v_a"⟩)],
       [("v_a", ⟨"v_a", "std_a", "A", 0, "body", "body", none⟩)],
       [("chg_a", ⟨"chg_a", "std_a", "v_0", "v_a", 1, "s", []⟩)]⟩
      "nonexistent_id" = none ∧
    get_latest_version
      ⟨[("std_a", ⟨"A", 0, ["v_a"], some "v_a"⟩)],
       [("v_a", ⟨"v_a", "std_a", "A", 0, "body", "body", none⟩)],
       [("chg_a", ⟨"chg_a", "std_a", "v_0", "v_a", 1, "s", []⟩)]⟩
      "nonexistent_id" = none ∧
    get_standard_versions
      ⟨[("std_a", ⟨"A", 0, ["v_a"], some "v_a"⟩)],
       [("v_a", ⟨"v_a", "std_a", "A", 0, "body", "body", none⟩)],
       [("chg_a", ⟨"chg_a", "std_a", "v_0", "v_a", 1, "s", []⟩)]⟩
      "nonexistent_id" = [] ∧
    get_version_changes
      ⟨[("std_a", ⟨"A", 0, ["v_a"], some "v_a"⟩)],
       [("v_a", ⟨"v_a", "std_a", "A", 0, "body", "body", none⟩)],
       [("chg_a", ⟨"chg_a", "std_a", "v_0", "v_a", 1, "s", []⟩)]⟩
      "nonexistent_id" = none := by
  have h := getters_none_on_unknown_id
    ⟨[("std_a", ⟨"A", 0, ["v_a"], some "v_a"⟩)],
     [("v_a", ⟨"v_a", "std_a", "A", 0, "body", "body", none⟩)],
     [("chg_a", ⟨"chg_a", "std_a", "v_0", "v_a", 1, "s", []⟩)]⟩
    "nonexistent_id"
  exact ⟨h.1 (by decide), h.2.1 (by decide), h.2.2.1 (by decide),
    h.2.2.2 (by decide)⟩

/-- C8 counterexample: an index file that exists but cannot be read makes
`open` raise `OSError`, which `except json.JSONDecodeError` does not catch,
so loading does raise instead of yielding the fresh empty index. -/
theorem load_standards_index_unreadable_raises :
    load_standards_index IndexFileState.unreadable = Except.error () := rfl

/-- C8 (amended): if the standards index file is missing, or exists but its
contents are malformed JSON, loading does not raise and yields the fresh
empty index; an existing file that cannot be read makes loading raise. -/
theorem load_standards_index_missing_or_malformed (f : IndexFileState)
    (h : f = IndexFileState.missing ∨ f = IndexFileState.malformed) :
    load_standards_index f = Except.ok [] := by
  rcases h with h | h <;> simp [h, load_standards_index]

/-- C8 witness: loading a missing index file yields the empty index. -/
theorem load_standards_index_missing_witness :
    load_standards_index IndexFileState.missing = Except.ok [] :=
  load_standards_index_missing_or_malformed IndexFileState.missing
    (Or.inl rfl)

/-- Core of the C5 characterisation, over arbitrary added and removed line
lists; `generate_changes_summary` is definitionally this assembly applied
to its two filters. -/
theorem changes_spec_core (A R : List String) :
    let cs :=
      (if
          ((if A.isEmpty then []
            else [({ type := "addition",
                     description :=
                       "Added " ++ toString A.length ++ " new lines",
                     content := "\n".intercalate (A.take 5) ++
                       (if A.length > 5 then "..." else "") } : ChangeItem)])
          ++
          (if R.isEmpty then []
            else [({ type := "removal",
                     description :=
                       "Removed " ++ toString R.length ++ " lines",
                     content := "\n".intercalate (R.take 5) ++
                       (if R.length > 5 then "..." else "") } : ChangeItem)])).isEmpty
        then
          [({ type := "modification",
              description :=
                "Content modified with no clear line additions/removals",
              content := "" } : ChangeItem)]
        else
          (if A.isEmpty then []
            else [({ type := "addition",
                     description :=
                       "Added " ++ toString A.length ++ " new lines",
                     content := "\n".intercalate (A.take 5) ++
                       (if A.length > 5 then "..." else "") } : ChangeItem)])
          ++
          (if R.isEmpty then []
            else [({ type := "removal",
                     description :=
                       "Removed " ++ toString R.length ++ " lines",
                     content := "\n".intercalate (R.take 5) ++
                       (if R.length > 5 then "..." else "") } : ChangeItem)]))
    ((cs.filter fun c => c.type == "addition") =
      if A = [] then []
      else [{ type := "addition",
              description := "Added " ++ toString A.length ++ " new lines",
              content := "\n".intercalate (A.take 5) ++
                (if A.length > 5 then "..." else "") }]) ∧
    ((cs.filter fun c => c.type == "removal") =
      if R = [] then []
      else [{ type := "removal",
              description := "Removed " ++ toString R.length ++ " lines",
              content := "\n".intercalate (R.take 5) ++
                (if R.length > 5 then "..." else "") }]) ∧
    ((A = [] ∧ R = []) ↔
      cs = [{ type := "modification",
              description :=
                "Content modified with no clear line additions/removals",
              content := "" }]) := by
  intro cs
  by_cases ha : A = [] <;> by_cases hr : R = [] <;>
    simp [cs, ha, hr, List.filter_cons, ChangeItem.mk.injEq]

/-- C5: `_generate_changes_summary` computes `added` as the non-empty lines
of the new text absent from the old lines and `removed` symmetrically; it
emits one addition item (count in the description, content the first at
most 5 added lines, with `...` appended exactly when more than 5) iff
`added` is non-empty, one removal item symmetrically, and exactly the
single empty modification item iff both lists are empty. -/
theorem generate_changes_summary_spec (old_content new_content : String) :
    (((generate_changes_summary old_content new_content).filter
        fun c => c.type == "addition") =
      if ((splitlines new_content).filter fun line =>
            !(line.trim == "") && !((splitlines old_content).contains line))
          = [] then []
      else [{ type := "addition",
              description := "Added " ++
                toString ((splitlines new_content).filter fun line =>
                  !(line.trim == "") &&
                    !((splitlines old_content).contains line)).length ++
                " new lines",
              content := "\n".intercalate
                (((splitlines new_content).filter fun line =>
                  !(line.trim == "") &&
                    !((splitlines old_content).contains line)).take 5) ++
                (if ((splitlines new_content).filter fun line =>
                    !(line.trim == "") &&
                      !((splitlines old_content).contains line)).length > 5
                  then "..." else "") }]) ∧
    (((generate_changes_summary old_content new_content).filter
        fun c => c.type == "removal") =
      if ((splitlines old_content).filter fun line =>
            !(line.trim == "") && !((splitlines new_content).contains line))
          = [] then []
      else [{ type := "removal",
              description := "Removed " ++
                toString ((splitlines old_content).filter fun line =>
                  !(line.trim == "") &&
                    !((splitlines new_content).contains line)).length ++
                " lines",
              content := "\n".intercalate
                (((splitlines old_content).filter fun line =>
                  !(line.trim == "") &&
                    !((splitlines new_content).contains line)).take 5) ++
                (if ((splitlines old_content).filter fun line =>
                    !(line.trim == "") &&
                      !((splitlines new_content).contains line)).length > 5
                  then "..." else "") }]) ∧
    ((((splitlines new_content).filter fun line =>
          !(line.trim == "") && !((splitlines old_content).contains line))
          = [] ∧
      ((splitlines old_content).filter fun line =>
          !(line.trim == "") && !((splitlines new_content).contains line))
          = []) ↔
      generate_changes_summary old_content new_content =
        [{ type := "modification",
           description :=
             "Content modified with no clear line additions/removals",
           content := "" }]) := by
  exact changes_spec_core
    ((splitlines new_content).filter
      fun line => !(line.trim == "") &&
        !((splitlines old_content).contains line))
    ((splitlines old_content).filter
      fun line => !(line.trim == "") &&
        !((splitlines new_content).contains line))

/-- C6 counterexample: with the embedding path failed, two non-empty inputs
with non-empty but disjoint token sets get similarity `0.0`, so `0.0` is
not returned only on empty inputs. -/
theorem fallback_similarity_zero_on_disjoint :
    calculate_content_similarity none "abc" "xyz" = 0 ∧
    "abc" ≠ "" ∧ "xyz" ≠ "" ∧
    tokenSet "abc" ≠ ∅ ∧ tokenSet "xyz" ≠ ∅ := by
  refine ⟨?_, by decide, by decide, by decide, by decide⟩
  show jaccardSets (tokenSet "abc") (tokenSet "xyz") = 0
  have h1 : (tokenSet "abc" ∩ tokenSet "xyz").card = 0 := by decide
  have h2 : (tokenSet "abc" ∪ tokenSet "xyz").card = 2 := by decide
  unfold jaccardSets
  rw [if_neg (by decide), if_pos (by decide), h1, h2]
  norm_num

/-- C6 (amended): when the embedding path fails or no embedding model is
configured, the content similarity of two non-empty strings is total
(never raises), lies in `[0, 1]`, and is `0` only when the normalized
token sets are empty or disjoint. -/
theorem fallback_similarity_bounds (a b : String)
    (ha : a ≠ "") (hb : b ≠ "") :
    0 ≤ calculate_content_similarity none a b ∧
    calculate_content_similarity none a b ≤ 1 ∧
    (calculate_content_similarity none a b = 0 →
      tokenSet a = ∅ ∨ tokenSet b = ∅ ∨ tokenSet a ∩ tokenSet b = ∅) :=
  ⟨jaccardSets_nonneg _ _, jaccardSets_le_one _ _,
    fun h => jaccardSets_eq_zero _ _ h⟩

/-- C6 witness: the bounds instantiated at two concrete non-empty
strings. -/
theorem fallback_similarity_bounds_witness :
    "hello world" ≠ "" ∧ "world peace" ≠ "" ∧
    (0 ≤ calculate_content_similarity none "hello world" "world peace" ∧
     calculate_content_similarity none "hello world" "world peace" ≤ 1 ∧
     (calculate_content_similarity none "hello world" "world peace" = 0 →
       tokenSet "hello world" = ∅ ∨ tokenSet "world peace" = ∅ ∨
       tokenSet "hello world" ∩ tokenSet "world peace" = ∅)) :=
  ⟨by decide, by decide,
    fallback_similarity_bounds "hello world" "world peace"
      (by decide) (by decide)⟩

/-- C9: for a standard whose index entry lists versions `i1, i2, i3` in
creation order (strictly increasing creation timestamps), whose latest
pointer is `i3`, and whose three version files are present,
`get_latest_version` returns the third version and
`get_standard_versions` returns the three versions newest first. -/
theorem version_chaining (store : Store) (standard_id : String)
    (info : StandardInfo) (i1 i2 i3 : String) (v1 v2 v3 : VersionData)
    (hinfo : alistGet store.standards standard_id = some info)
    (hvers : info.versions = [i1, i2, i3])
    (hlat : info.latest_version = some i3)
    (h1 : get_version store i1 = some v1)
    (h2 : get_version store i2 = some v2)
    (h3 : get_version store i3 = some v3)
    (h12 : v1.version_date < v2.version_date)
    (h23 : v2.version_date < v3.version_date) :
    get_latest_version store standard_id = some v3 ∧
    get_standard_versions store standard_id = [v3, v2, v1] := by
  constructor
  · simp only [get_latest_version, hinfo, hlat, h3]
  · simp only [get_standard_versions, hinfo, hvers, List.filterMap_cons,
      List.filterMap_nil, h1, h2, h3]
    simp [sortByDateDesc, insertByDateDesc, not_le.mpr h12,
      not_le.mpr h23, not_le.mpr (h12.trans h23)]

/-- C9 witness: a concrete store with three chained versions. -/
theorem version_chaining_witness :
    get_latest_version
      ⟨[("std_a", ⟨"A", 0, ["v_1", "v_2", "v_3"], some "v_3"⟩)],
       [("v_1", ⟨"v_1", "std_a", "A", 1, "c1", "c1", none⟩),
        ("v_2", ⟨"v_2", "std_a", "A", 2, "c2", "c2", none⟩),
        ("v_3", ⟨"v_3", "std_a", "A", 3, "c3", "c3", none⟩)], []⟩
      "std_a" = some ⟨"v_3", "std_a", "A", 3, "c3", "c3", none⟩ ∧
    get_standard_versions
      ⟨[("std_a", ⟨"A", 0, ["v_1", "v_2", "v_3"], some "v_3"⟩)],
       [("v_1", ⟨"v_1", "std_a", "A", 1, "c1", "c1", none⟩),
        ("v_2", ⟨"v_2", "std_a", "A", 2, "c2", "c2", none⟩),
        ("v_3", ⟨"v_3", "std_a", "A", 3, "c3", "c3", none⟩)], []⟩
      "std_a" =
      [⟨"v_3", "std_a", "A", 3, "c3", "c3", none⟩,
       ⟨"v_2", "std_a", "A", 2, "c2", "c2", none⟩,
       ⟨"v_1", "std_a", "A", 1, "c1", "c1", none⟩] :=
  version_chaining
    ⟨[("std_a", ⟨"A", 0, ["v_1", "v_2", "v_3"], some "v_3"⟩)],
     [("v_1", ⟨"v_1", "std_a", "A", 1, "c1", "c1", none⟩),
      ("v_2", ⟨"v_2", "std_a", "A", 2, "c2", "c2", none⟩),
      ("v_3", ⟨"v_3", "std_a", "A", 3, "c3", "c3", none⟩)], []⟩
    "std_a" ⟨"A", 0, ["v_1", "v_2", "v_3"], some "v_3"⟩ "v_1" "v_2" "v_3"
    ⟨"v_1", "std_a", "A", 1, "c1", "c1", none⟩
    ⟨"v_2", "std_a", "A", 2, "c2", "c2", none⟩
    ⟨"v_3", "std_a", "A", 3, "c3", "c3", none⟩
    (by decide) (by decide) (by decide) (by decide) (by decide) (by decide)
    (by decide) (by decide)
